import Mathlib

/-!
Shallow embedding of the cascade-resolution / database-state loader of this repository
(src/persistment/DatabaseEntityLoader.ts), together with models of the external
capabilities it consumes (EntityMetadata, RelationMetadata accessors, Subject,
SubjectCollection, Repository), which are not part of the provided sources and are
therefore modelled from the specification.

Conventions of the embedding:
- JavaScript values relevant to the loader (relation identifiers) are `JsVal`:
  undefined, null, or a numeric id.  Reading a missing object property yields
  undefined, as in JavaScript.
- In-memory persisted entities form a heap (`Heap`): a list of objects addressed by
  index, so that cyclic object graphs are representable.  A to-one relation property
  of a persisted entity is undefined, null, or a reference into the heap.
- Database rows are association lists of column values.
- The asynchronous structure of the source (`await Promise.all`) is linearized:
  relation checks run sequentially, and a rejected promise is an `Except.error`
  that aborts the whole run, which is what the caller of `load` observes.
- Recursive walks carry explicit fuel; a result of `none` means the walk did not
  terminate within the given fuel (for every fuel) or was not given enough fuel.
-/

namespace DatabaseEntityLoaderModel

/-- JavaScript-like primitive value appearing in relation-identifier positions. -/
inductive JsVal where
  | undef : JsVal
  | null : JsVal
  | num : Int → JsVal
deriving DecidableEq

/-- A database row, as returned by the Repository capability: an association list of
column name to value. -/
abbrev Row := List (String × JsVal)

/-- Reading a property of a row: a missing property reads as undefined (JavaScript). -/
def getCol (row : Row) (c : String) : JsVal :=
  (List.lookup c row).getD JsVal.undef

/-- Value of a to-one relation property on an in-memory persisted entity:
undefined (property untouched), null (explicitly cleared), or a reference to
another persisted entity in the heap. -/
inductive RelProp where
  | undef : RelProp
  | null : RelProp
  | ref : Nat → RelProp
deriving DecidableEq

/-- An in-memory persisted entity: scalar columns plus relation properties. -/
structure EObj where
  cols : Row
  rels : List (String × RelProp)
deriving DecidableEq

/-- The object graph of persisted entities, addressed by reference (list index). -/
abbrev Heap := List EObj

def heapObj (h : Heap) (r : Nat) : EObj :=
  (h.get? r).getD ⟨[], []⟩

def getRelProp (h : Heap) (r : Nat) (name : String) : RelProp :=
  (List.lookup name (heapObj h r).rels).getD RelProp.undef

/-- Relation cardinality and ownership, as exposed by the Relation Descriptor. -/
inductive RelKind where
  | manyToOne
  | oneToOneOwner
  | oneToOneNotOwner
  | oneToMany
deriving DecidableEq

/-- Modelled from the spec: the Relation Descriptor (RelationMetadata is not part of
the provided sources).  `ownIdCol` is the column read by `getOwnEntityRelationId`,
`invIdCol` the column read by `getInverseEntityRelationId`, `joinColumnReferenced`
is `joinColumn.referencedColumn.propertyName`, and `inverseSideProperty` is the
inverse-side filter column used by the non-owning one-to-one lookup. -/
structure Rel where
  propertyName : String
  kind : RelKind
  isCascadeInsert : Bool
  isCascadeUpdate : Bool
  isCascadeRemove : Bool
  inverseTarget : String
  joinColumnReferenced : String
  inverseSideProperty : String
  ownIdCol : String
  invIdCol : String
deriving DecidableEq

/-- Modelled from the spec: entity metadata — target, primary identifier column and
relation descriptors. -/
structure Meta where
  target : String
  idCol : String
  relations : List Rel
deriving DecidableEq

abbrev Metas := List Meta

/-- Resolution of `connection.getMetadata(target)`. -/
def findMeta (ms : Metas) (t : String) : Meta :=
  (ms.find? (fun m => m.target == t)).getD ⟨t, "id", []⟩

/-- Modelled from the spec: a Subject pairs one entity's persisted value with its
database-loaded value and the marked-for-removal flag. -/
structure Subject where
  meta : Meta
  entity : Option Nat
  databaseEntity : Option Row
  mixedId : JsVal
  markedAsRemoved : Bool
deriving DecidableEq

def defaultSubject : Subject :=
  ⟨⟨"", "id", []⟩, none, none, JsVal.undef, false⟩

/-- Subject creation from a persisted entity: the mixed identifier is derived from
the entity's primary key column (spec, Data Model). -/
def mkSubject (h : Heap) (m : Meta) (r : Nat) : Subject :=
  ⟨m, some r, none, getCol (heapObj h r).cols m.idCol, false⟩

abbrev SubjectCollection := List Subject

/-- Identity of Subjects: same entity type and same identifier. -/
def identityEq (a b : Subject) : Bool :=
  a.meta.target == b.meta.target && a.mixedId == b.mixedId

def hasIdentity (c : SubjectCollection) (s : Subject) : Bool :=
  c.any (fun x => identityEq x s)

/-- Modelled from the spec: SubjectCollection.pushIfNotExist appends only when no
existing Subject shares type and identifier (the deduplication primitive). -/
def pushIfNotExist (c : SubjectCollection) (s : Subject) : SubjectCollection :=
  if hasIdentity c s then c else c ++ [s]

/-- Helper: the reference held by a relation property, if it is an entity reference. -/
def relPropRef : RelProp → Option Nat
  | RelProp.ref r => some r
  | _ => none

/-- Modelled from the spec: Relation.isEntityDefined — true exactly for a real
entity reference (neither undefined nor null). -/
def isEntityDefined (v : RelProp) : Bool :=
  (relPropRef v).isSome

/-- Modelled from the spec: EntityMetadata.extractRelationValuesFromEntity yields
(relation, value) pairs for the relations of the entity. -/
def extractRelationValuesFromEntity (h : Heap) (m : Meta) (r : Nat) :
    List (Rel × RelProp) :=
  m.relations.map (fun rel => (rel, getRelProp h r rel.propertyName))

/-- The loop body of Phase 1 over the extracted relation values of one entity
(DatabaseEntityLoader.findCascadeUpdateAndInsertEntitiesToLoad, lines 109-126):
for a defined value of a relation with insert or update cascade, push a Subject for
the value if none with the same identity exists, and recurse into the value via
`rec`; otherwise skip the relation. -/
def phase1List (ms : Metas) (h : Heap)
    (rec : Meta → Nat → SubjectCollection → Option SubjectCollection) :
    List (Rel × RelProp) → SubjectCollection → Option SubjectCollection
  | [], coll => some coll
  | rv :: rest, coll =>
    match relPropRef rv.2 with
    | some r2 =>
      if rv.1.isCascadeInsert || rv.1.isCascadeUpdate then
        let vm := findMeta ms rv.1.inverseTarget
        match rec vm r2 (pushIfNotExist coll (mkSubject h vm r2)) with
        | none => none
        | some c2 => phase1List ms h rec rest c2
      else phase1List ms h rec rest coll
    | none => phase1List ms h rec rest coll

/-- Phase 1 of the loader (findCascadeUpdateAndInsertEntitiesToLoad): the
insert/update discovery walk, with explicit fuel bounding the recursion depth.
The source recurses into the related value unconditionally after
`pushIfNotExist`; the embedding preserves that. -/
def findCascadeUpdateAndInsertEntitiesToLoad (ms : Metas) (h : Heap) :
    Nat → Meta → Nat → SubjectCollection → Option SubjectCollection
  | 0, _, _, _ => none
  | n + 1, m, r, coll =>
    phase1List ms h
      (fun vm r2 c => findCascadeUpdateAndInsertEntitiesToLoad ms h n vm r2 c)
      (extractRelationValuesFromEntity h m r) coll

/-- Error observed by the caller of load: a rejected Repository fetch, or the
JavaScript TypeError raised by reading a relation identifier off an absent
persisted value. -/
inductive LoadErr where
  | fetchFail : String → LoadErr
  | absentEntityRead : LoadErr
deriving DecidableEq

/-- Modelled from the spec: the Repository / storage capability.  `rows` are the
persisted tables keyed by target; the two oracles mark which fetches fail
(FetchError). -/
structure Storage where
  rows : List (String × List Row)
  failSingle : String → String → JsVal → Bool
  failByIds : String → Bool

def tableRows (st : Storage) (t : String) : List Row :=
  (List.lookup t st.rows).getD []

/-- SQL equality used by the Repository filters: only two present numeric values
compare equal; a null or undefined operand matches nothing. -/
def sqlEq (a b : JsVal) : Bool :=
  match a, b with
  | JsVal.num x, JsVal.num y => x == y
  | _, _ => false

/-- Modelled from the spec: the single-row lookup of the Repository (query builder
where column = parameter, getSingleResult). -/
def repoGetSingle (st : Storage) (t col : String) (v : JsVal) :
    Except LoadErr (Option Row) :=
  if st.failSingle t col v then Except.error (LoadErr.fetchFail t)
  else Except.ok ((tableRows st t).find? (fun row => sqlEq v (getCol row col)))

/-- Modelled from the spec: Repository.findByIds — the rows of the target table
whose identifier column matches one of the requested identifiers. -/
def findByIdsQ (st : Storage) (t idCol : String) (ids : List JsVal) :
    Except LoadErr (List Row) :=
  if st.failByIds t then Except.error (LoadErr.fetchFail t)
  else Except.ok ((tableRows st t).filter (fun row => ids.any (fun i => sqlEq i (getCol row idCol))))

def setDb (s : Subject) (row : Row) : Subject :=
  { s with databaseEntity := some row }

/-- Modelled from the spec: SubjectCollection.findByEntityLike applied to one
returned row — the first Subject with the row's target and identifier receives
the row as its database entity. -/
def assignRow (meta : Meta) (t : String) (row : Row) :
    SubjectCollection → SubjectCollection
  | [] => []
  | s :: rest =>
    if s.meta.target == t && s.mixedId == getCol row meta.idCol then setDb s row :: rest
    else s :: assignRow meta t row rest

def assignRows (meta : Meta) (t : String) (rows : List Row)
    (mp : SubjectCollection) : SubjectCollection :=
  rows.foldl (fun acc row => assignRow meta t row acc) mp

/-- The distinct entity targets of the collection (groupByEntityTargets). -/
def collectTargets (mp : SubjectCollection) : List String :=
  (mp.map (fun s => s.meta.target)).dedup

/-- Phase 2 group loop (populateSubjectCollectionWithDatabaseEntities, lines
320-339): per target, one batched findByIds over the mixed identifiers of that
target's Subjects, then each returned row is attached to the matching Subject. -/
def populateList (ms : Metas) (st : Storage) :
    List String → SubjectCollection → Except LoadErr SubjectCollection
  | [], mp => Except.ok mp
  | t :: rest, mp =>
    match findByIdsQ st t (findMeta ms t).idCol
        ((mp.filter (fun s => s.meta.target == t)).map (fun s => s.mixedId)) with
    | Except.error e => Except.error e
    | Except.ok rows => populateList ms st rest (assignRows (findMeta ms t) t rows mp)

def populateSubjectCollectionWithDatabaseEntities (ms : Metas) (st : Storage)
    (mp : SubjectCollection) : Except LoadErr SubjectCollection :=
  populateList ms st (collectTargets mp) mp

/-- State threaded through the Phase-3 removal walk: the subject collection
(this.loadMap) plus an audit trace of the single-row lookups that were issued
(target, filter column, filter parameter). -/
structure LoaderState where
  loadMap : SubjectCollection
  queries : List (String × String × JsVal)
deriving DecidableEq

/-- A reference to the subject under examination in Phase 3: either a position in
the collection, or a detached Subject freshly created from a fetched row (the
source never adds those to the collection). -/
inductive SubjRef where
  | inMap : Nat → SubjRef
  | detached : Subject → SubjRef
deriving DecidableEq

def getSubject (mp : SubjectCollection) : SubjRef → Subject
  | SubjRef.inMap i => (mp.get? i).getD defaultSubject
  | SubjRef.detached s => s

def markRemoved (s : Subject) : Subject :=
  { s with markedAsRemoved := true }

def markAt (mp : SubjectCollection) (i : Nat) : SubjectCollection :=
  mp.set i (markRemoved ((mp.get? i).getD defaultSubject))

/-- getOwnEntityRelationId on a database row. -/
def getOwnEntityRelationId (rel : Rel) (row : Row) : JsVal :=
  getCol row rel.ownIdCol

/-- getOwnEntityRelationId on a persisted heap entity. -/
def getOwnEntityRelationIdOfEntity (h : Heap) (rel : Rel) (e : Nat) : JsVal :=
  getCol (heapObj h e).cols rel.ownIdCol

/-- getInverseEntityRelationId on a database row. -/
def getInverseEntityRelationId (rel : Rel) (row : Row) : JsVal :=
  getCol row rel.invIdCol

/-- JavaScript truthiness of the values that can sit in a relation-identifier
variable (line 307 tests the persisted relation identifier for truthiness). -/
def jsTruthy : JsVal → Bool
  | JsVal.num n => n != 0
  | _ => false

/-- Computation of persistValueRelationId (lines 156-162): none encodes the
"skip undefined properties" early return; a null relation property (and an
absent persisted value) yield null. -/
def persistValueRelationId (h : Heap) (rel : Rel) (subject : Subject) :
    Option JsVal :=
  match subject.entity with
  | none => some JsVal.null
  | some e =>
    match getRelProp h e rel.propertyName with
    | RelProp.undef => none
    | RelProp.null => some JsVal.null
    | RelProp.ref r2 =>
      match getInverseEntityRelationId rel (heapObj h r2).cols with
      | JsVal.undef => none
      | v => some v

/-- The predicate of loadMap.find in both Phase-3 branches (lines 204-214 and
267-277): a Subject with a loaded database entity, the related target, and whose
inverse relation identifier equals the database relation identifier. -/
def relatedSubjectPred (rel : Rel) (vmTarget : String) (dbRelId : JsVal)
    (rs : Subject) : Bool :=
  match rs.databaseEntity with
  | none => false
  | some rr => rs.meta.target == vmTarget && getInverseEntityRelationId rel rr == dbRelId

/-- Result of a Phase-3 computation: none is fuel exhaustion (divergence), an
error aborts the whole load, otherwise the updated state. -/
abbrev P3Res := Option (Except LoadErr LoaderState)

abbrev RecFun := SubjRef → LoaderState → P3Res

/-- One relation of the Phase-3 removal walk
(findCascadeRemovedEntitiesToLoad, lines 145-314), for the subject referenced by
`sref`.  `rec` is the recursive re-examination of a marked related subject.
The two pushes of the original subject (lines 230 and 296) are embedded as in
the source.  The non-owning branch reads getOwnEntityRelationId(subject.entity)
for its filter parameter (line 287) whether or not the persisted value is
present; an absent persisted value there raises the JavaScript TypeError,
embedded as LoadErr.absentEntityRead. -/
def findCascadeRemovedForRelation (ms : Metas) (storage : Storage) (h : Heap)
    (rec : RecFun) (sref : SubjRef) (rel : Rel) (st : LoaderState) : P3Res :=
  let subject := getSubject st.loadMap sref
  let vm := findMeta ms rel.inverseTarget
  if !rel.isCascadeRemove then some (Except.ok st)
  else
    match subject.databaseEntity with
    | none => some (Except.ok st)
    | some dbRow =>
      match persistValueRelationId h rel subject with
      | none => some (Except.ok st)
      | some pId =>
        if rel.kind = RelKind.oneToOneOwner ∨ rel.kind = RelKind.manyToOne then
          let dbRelId := getOwnEntityRelationId rel dbRow
          if dbRelId ≠ JsVal.null ∧ dbRelId ≠ JsVal.undef then some (Except.ok st)
          else if pId = JsVal.null ∨ pId = dbRelId then some (Except.ok st)
          else
            match st.loadMap.findIdx? (relatedSubjectPred rel vm.target dbRelId) with
            | some i => rec (SubjRef.inMap i) { st with loadMap := markAt st.loadMap i }
            | none =>
              let st1 := { st with
                queries := st.queries ++ [(vm.target, rel.joinColumnReferenced, dbRelId)] }
              match repoGetSingle storage vm.target rel.joinColumnReferenced dbRelId with
              | Except.error e => some (Except.error e)
              | Except.ok none => some (Except.ok st1)
              | Except.ok (some row) =>
                let newSubj : Subject := ⟨vm, none, some row, getCol row vm.idCol, false⟩
                let st2 := { st1 with loadMap := st1.loadMap ++ [subject] }
                rec (SubjRef.detached (markRemoved newSubj)) st2
        else if rel.kind = RelKind.oneToOneNotOwner then
          let dbRelId := getOwnEntityRelationId rel dbRow
          if dbRelId ≠ JsVal.null ∧ dbRelId ≠ JsVal.undef then some (Except.ok st)
          else
            match st.loadMap.findIdx? (relatedSubjectPred rel vm.target dbRelId) with
            | some i =>
              let rs := (st.loadMap.get? i).getD defaultSubject
              match rs.databaseEntity with
              | none => some (Except.ok st)
              | some rr =>
                if jsTruthy pId && pId == getInverseEntityRelationId rel rr then
                  some (Except.ok st)
                else rec (SubjRef.inMap i) { st with loadMap := markAt st.loadMap i }
            | none =>
              match subject.entity with
              | none => some (Except.error LoadErr.absentEntityRead)
              | some e =>
                let param := getOwnEntityRelationIdOfEntity h rel e
                let st1 := { st with
                  queries := st.queries ++ [(vm.target, rel.inverseSideProperty, param)] }
                match repoGetSingle storage vm.target rel.inverseSideProperty param with
                | Except.error er => some (Except.error er)
                | Except.ok none => some (Except.ok st1)
                | Except.ok (some row) =>
                  let newSubj : Subject := ⟨vm, none, some row, getCol row vm.idCol, false⟩
                  let st2 := { st1 with loadMap := st1.loadMap ++ [subject] }
                  if jsTruthy pId && pId == getInverseEntityRelationId rel row then
                    some (Except.ok st2)
                  else rec (SubjRef.detached (markRemoved newSubj)) st2
        else some (Except.ok st)

/-- Sequential walk over the remove-cascade relations of one subject. -/
def findCascadeRemovedRelList (ms : Metas) (storage : Storage) (h : Heap)
    (rec : RecFun) (sref : SubjRef) :
    List Rel → LoaderState → P3Res
  | [], st => some (Except.ok st)
  | rel :: rest, st =>
    match findCascadeRemovedForRelation ms storage h rec sref rel st with
    | none => none
    | some (Except.error e) => some (Except.error e)
    | some (Except.ok st2) => findCascadeRemovedRelList ms storage h rec sref rest st2

/-- Phase 3 for one subject (findCascadeRemovedEntitiesToLoad): examine every
relation of the subject's metadata, recursing (with one unit of fuel) into each
related subject that was marked for removal. -/
def findCascadeRemovedEntitiesToLoad (ms : Metas) (storage : Storage) (h : Heap) :
    Nat → SubjRef → LoaderState → P3Res
  | 0, _, _ => none
  | n + 1, sref, st =>
    findCascadeRemovedRelList ms storage h
      (fun sr s => findCascadeRemovedEntitiesToLoad ms storage h n sr s)
      sref (getSubject st.loadMap sref).meta.relations st

/-- The Phase-3 driver of load (lines 87-90): the subjects that received a
database entity, taken from a snapshot of the collection, each undergo the
removal walk. -/
def removeRunList (ms : Metas) (storage : Storage) (h : Heap) (fuel : Nat) :
    List Nat → LoaderState → P3Res
  | [], st => some (Except.ok st)
  | i :: rest, st =>
    match findCascadeRemovedEntitiesToLoad ms storage h fuel (SubjRef.inMap i) st with
    | none => none
    | some (Except.error e) => some (Except.error e)
    | some (Except.ok st2) => removeRunList ms storage h fuel rest st2

def snapshotWithDb (mp : SubjectCollection) : List Nat :=
  (List.range mp.length).filter (fun i => ((mp.get? i).getD defaultSubject).databaseEntity.isSome)

/-- The load entry point (lines 81-93): root Subject, Phase-1 walk, Phase-2
batched fetch, then the Phase-3 removal walks over the subjects that have a
database entity.  A none result means a walk did not terminate in the given
fuel. -/
def load (ms : Metas) (storage : Storage) (h : Heap) (fuel : Nat)
    (rootMeta : Meta) (root : Nat) : P3Res :=
  let rootS := mkSubject h rootMeta root
  match findCascadeUpdateAndInsertEntitiesToLoad ms h fuel rootMeta root [rootS] with
  | none => none
  | some m1 =>
    match populateSubjectCollectionWithDatabaseEntities ms storage m1 with
    | Except.error e => some (Except.error e)
    | Except.ok m2 =>
      removeRunList ms storage h fuel (snapshotWithDb m2) ⟨m2, []⟩

/-- Projection of a load result onto the success state. -/
def loadOk : P3Res → Option LoaderState
  | some (Except.ok s) => some s
  | _ => none

/-- Projection of a load result onto the rejection value. -/
def loadErr : P3Res → Option LoadErr
  | some (Except.error e) => some e
  | _ => none

/-! ### Concrete scenarios -/

/-- Scenario A of the spec: Post has a many-to-one remove-cascade relation to
Category; the join column is categoryId. -/
def catRel : Rel :=
  ⟨"category", RelKind.manyToOne, false, false, true, "Category", "id", "", "categoryId", "id"⟩

def postMetaA : Meta := ⟨"Post", "id", [catRel]⟩

def categoryMetaA : Meta := ⟨"Category", "id", []⟩

def msA : Metas := [postMetaA, categoryMetaA]

/-- Scenario A root: Post with id 1 and category explicitly null. -/
def heapA : Heap := [⟨[("id", JsVal.num 1)], [("category", RelProp.null)]⟩]

/-- Scenario A storage: the Post row has categoryId 5 and the Category row with
id 5 exists. -/
def storageA : Storage :=
  ⟨[("Post", [[("id", JsVal.num 1), ("categoryId", JsVal.num 5)]]),
    ("Category", [[("id", JsVal.num 5)]])],
   fun _ _ _ => false, fun _ => false⟩

def runA : P3Res := load msA storageA heapA 6 postMetaA 0

/-- C2 cycle scenario: a Post whose insert-cascaded relation points back at the
same Post object. -/
def selfRel : Rel :=
  ⟨"next", RelKind.manyToOne, true, false, false, "Post", "id", "", "nextId", "id"⟩

def postMetaC2 : Meta := ⟨"Post", "id", [selfRel]⟩

def msC2 : Metas := [postMetaC2]

def heapC2 : Heap := [⟨[("id", JsVal.num 1)], [("next", RelProp.ref 0)]⟩]

def s0C2 : Subject := mkSubject heapC2 postMetaC2 0

/-! ### Claim C1 -/

/-- On the self-cycle, once the root's identity is in the collection, the Phase-1
walk never terminates: the source recurses into the relation value regardless of
the pushIfNotExist outcome, so every amount of fuel is exhausted. -/
theorem phase1_selfCycle_none (n : Nat) :
    ∀ coll, hasIdentity coll s0C2 = true →
      findCascadeUpdateAndInsertEntitiesToLoad msC2 heapC2 n postMetaC2 0 coll = none := by
  induction n with
  | zero => intro coll _; rfl
  | succ n ih =>
    intro coll hhas
    have hex : extractRelationValuesFromEntity heapC2 postMetaC2 0 =
        [(selfRel, RelProp.ref 0)] := rfl
    have hvm : findMeta msC2 selfRel.inverseTarget = postMetaC2 := rfl
    have hmk : mkSubject heapC2 postMetaC2 0 = s0C2 := rfl
    unfold findCascadeUpdateAndInsertEntitiesToLoad
    rw [hex]
    unfold phase1List
    simp only [relPropRef, selfRel, Bool.true_or, if_true]
    rw [show findMeta msC2 "Post" = postMetaC2 from rfl]
    rw [show mkSubject heapC2 postMetaC2 0 = s0C2 from rfl]
    rw [show pushIfNotExist coll s0C2 = coll from by simp [pushIfNotExist, hhas]]
    rw [ih coll hhas]

/-- C1 evaluated at the spec's Scenario A: root Post with id 1 and category null,
database row with categoryId 5, Category row with id 5 in storage.  The load run
completes with a single unmarked Post subject, no Subject for Category 5, no
removal mark and no storage lookup: the owner-side branch returns as soon as the
database relation identifier is present (line 196), the opposite of its own
comment on line 195. -/
theorem c1_scenarioA_code_behavior :
    (loadOk runA).map
        (fun st => (st.loadMap.map (fun s => s.meta.target),
          st.loadMap.map (fun s => s.markedAsRemoved), st.queries)) =
      some (["Post"], [false], []) := by
  rfl

/-! ### Claim C2 -/

/-- C2 counterexample: the Phase-1 insert/update discovery walk started exactly as
load starts it does not terminate on a cyclic entity graph: no amount of fuel
makes it produce a collection, because identity-based deduplication does not stop
the walk from revisiting the already-collected pair. -/
theorem c2_phase1_cycle_counterexample :
    ¬ ∃ n c, findCascadeUpdateAndInsertEntitiesToLoad msC2 heapC2 n postMetaC2 0 [s0C2]
        = some c := by
  rintro ⟨n, c, hc⟩
  rw [phase1_selfCycle_none n [s0C2] (by decide)] at hc
  exact Option.noConfusion hc

/-- One-step gated references out of a heap object. -/
def heapRefs (h : Heap) (a : Nat) : List Nat :=
  (heapObj h a).rels.filterMap (fun p => relPropRef p.2)

theorem lookup_exists_snd {α β : Type} [BEq α] {k : α} {l : List (α × β)} {v : β}
    (hl : List.lookup k l = some v) : ∃ p ∈ l, p.2 = v := by
  induction l with
  | nil => simp [List.lookup] at hl
  | cons hd tl ih =>
    rw [List.lookup] at hl
    by_cases hk : (k == hd.1) = true
    · rw [hk] at hl
      simp only [cond_true] at hl
      exact ⟨hd, List.mem_cons_self hd tl, by exact Option.some.inj hl⟩
    · rw [Bool.not_eq_true] at hk
      rw [hk] at hl
      simp only [cond_false] at hl
      obtain ⟨p, hp, he⟩ := ih hl
      exact ⟨p, List.mem_cons_of_mem hd hp, he⟩

theorem mem_heapRefs_of_getRelProp {h : Heap} {a : Nat} {name : String} {b : Nat}
    (hg : getRelProp h a name = RelProp.ref b) : b ∈ heapRefs h a := by
  unfold getRelProp at hg
  cases hl : List.lookup name (heapObj h a).rels with
  | none => rw [hl] at hg; simp at hg
  | some v =>
    rw [hl] at hg
    simp only [Option.getD_some] at hg
    subst hg
    obtain ⟨p, hp, he⟩ := lookup_exists_snd hl
    exact List.mem_filterMap.mpr ⟨p, hp, by rw [he]; rfl⟩

theorem heapRefs_out_of_range {h : Heap} {a : Nat} (ha : h.length ≤ a) :
    heapRefs h a = [] := by
  unfold heapRefs heapObj
  rw [List.get?_eq_none.mpr ha]
  rfl

/-- Phase-1 list loop is total when every recursive call on a referenced child is
total. -/
theorem phase1List_isSome {ms : Metas} {h : Heap}
    {rec : Meta → Nat → SubjectCollection → Option SubjectCollection}
    (P : Nat → Prop)
    (Hrec : ∀ vm r2 c, P r2 → (rec vm r2 c).isSome = true) :
    ∀ l coll, (∀ rv ∈ l, ∀ b, relPropRef rv.2 = some b → P b) →
      (phase1List ms h rec l coll).isSome = true := by
  intro l
  induction l with
  | nil => intro coll _; rfl
  | cons rv rest ih =>
    intro coll hP
    unfold phase1List
    cases hr : relPropRef rv.2 with
    | none => exact ih coll (fun x hx => hP x (List.mem_cons_of_mem rv hx))
    | some r2 =>
      by_cases hg : (rv.1.isCascadeInsert || rv.1.isCascadeUpdate) = true
      · simp only [hg, if_true]
        have hrec := Hrec (findMeta ms rv.1.inverseTarget) r2
          (pushIfNotExist coll (mkSubject h (findMeta ms rv.1.inverseTarget) r2))
          (hP rv (List.mem_cons_self rv rest) r2 hr)
        cases hc : rec (findMeta ms rv.1.inverseTarget) r2
            (pushIfNotExist coll (mkSubject h (findMeta ms rv.1.inverseTarget) r2)) with
        | none => rw [hc] at hrec; simp at hrec
        | some c2 => exact ih c2 (fun x hx => hP x (List.mem_cons_of_mem rv hx))
      · rw [Bool.not_eq_true] at hg
        simp only [hg, if_false]
        exact ih coll (fun x hx => hP x (List.mem_cons_of_mem rv hx))

/-- C2 amended: the Phase-1 walk does terminate on every entity graph whose
reference structure is well-founded, witnessed by a measure that strictly
decreases along every in-range heap reference; fuel above the root's measure
suffices. -/
theorem c2_phase1_acyclic_terminates (ms : Metas) (h : Heap) (meas : Nat → Nat)
    (Hedge : ∀ a, a < h.length → ∀ b ∈ heapRefs h a, meas b < meas a) :
    ∀ n meta r coll, meas r < n →
      ∃ c, findCascadeUpdateAndInsertEntitiesToLoad ms h n meta r coll = some c := by
  intro n
  induction n with
  | zero => intro meta r coll hlt; omega
  | succ n ih =>
    intro meta r coll hlt
    have hs : (findCascadeUpdateAndInsertEntitiesToLoad ms h (n + 1) meta r coll).isSome
        = true := by
      unfold findCascadeUpdateAndInsertEntitiesToLoad
      apply phase1List_isSome (fun b => meas b < n)
      · intro vm r2 c hp
        obtain ⟨c2, hc2⟩ := ih vm r2 c hp
        rw [hc2]; rfl
      · intro rv hrv b hb
        obtain ⟨rel, hrel, hrv2⟩ := List.mem_map.mp hrv
        have hgp : getRelProp h r rel.propertyName = RelProp.ref b := by
          have : rv.2 = getRelProp h r rel.propertyName := by rw [← hrv2]
          rw [← this]
          cases hv : rv.2 <;> rw [hv] at hb <;> simp [relPropRef] at hb
          · rw [hb]
        have hmem : b ∈ heapRefs h r := mem_heapRefs_of_getRelProp hgp
        by_cases hr : r < h.length
        · have := Hedge r hr b hmem
          omega
        · rw [heapRefs_out_of_range (Nat.le_of_not_lt hr)] at hmem
          simp at hmem
    cases hc : findCascadeUpdateAndInsertEntitiesToLoad ms h (n + 1) meta r coll with
    | none => rw [hc] at hs; simp at hs
    | some c => exact ⟨c, rfl⟩

/-- Acyclic witness graph for the amended C2: object 0 references object 1, which
references nothing. -/
def heapW : Heap :=
  [⟨[("id", JsVal.num 1)], [("next", RelProp.ref 1)]⟩,
   ⟨[("id", JsVal.num 2)], []⟩]

def msW : Metas := [postMetaC2]

/-- Witness for the amended C2: on a concrete acyclic two-object graph the walk
terminates with fuel 3. -/
theorem c2_phase1_acyclic_terminates_witness :
    ∃ c, findCascadeUpdateAndInsertEntitiesToLoad msW heapW 3 postMetaC2 0
        [mkSubject heapW postMetaC2 0] = some c :=
  c2_phase1_acyclic_terminates msW heapW (fun a => 2 - a)
    (by decide) 3 postMetaC2 0 [mkSubject heapW postMetaC2 0] (by decide)

/-! ### Claim C3 -/

/-- Scenario exercising the Phase-3 push of the original subject: Details has a
non-owning one-to-one remove-cascade relation to Post, filtered on Post.detailsId;
the configured referenced column of the join is the Details column alt. -/
def postRel3 : Rel :=
  ⟨"post", RelKind.oneToOneNotOwner, false, false, true, "Post", "", "detailsId", "alt", "id"⟩

def detailsMeta3 : Meta := ⟨"Details", "id", [postRel3]⟩

def postMeta3 : Meta := ⟨"Post", "id", []⟩

def ms3 : Metas := [detailsMeta3, postMeta3]

/-- The persisted Details entity: id 1, alt 7, post explicitly null. -/
def heap3 : Heap := [⟨[("id", JsVal.num 1), ("alt", JsVal.num 7)], [("post", RelProp.null)]⟩]

/-- Storage: the Details row lacks the alt column (it reads as undefined), and a
Post row points back at alt value 7. -/
def storage3 : Storage :=
  ⟨[("Details", [[("id", JsVal.num 1)]]),
    ("Post", [[("id", JsVal.num 9), ("detailsId", JsVal.num 7)]])],
   fun _ _ _ => false, fun _ => false⟩

def run3 : P3Res := load ms3 storage3 heap3 6 detailsMeta3 0

/-- Number of Subjects in the collection with the given type and identifier. -/
def countKey (c : SubjectCollection) (t : String) (id : JsVal) : Nat :=
  (c.filter (fun s => s.meta.target == t && s.mixedId == id)).length

/-- C3 counterexample: a load call that completes, in which the final collection
holds the pair (Details, 1) twice — Phase 3, after fetching the related Post row,
pushes the original Details subject into the collection a second time. -/
theorem c3_duplicate_pair_counterexample :
    (loadOk run3).map (fun st => countKey st.loadMap "Details" (JsVal.num 1)) = some 2 := by
  rfl

def keyOf (s : Subject) : String × JsVal := (s.meta.target, s.mixedId)

def keysOf (c : SubjectCollection) : List (String × JsVal) := c.map keyOf

theorem identityEq_iff {a b : Subject} : identityEq a b = true ↔ keyOf a = keyOf b := by
  simp [identityEq, keyOf, Prod.ext_iff]

theorem hasIdentity_iff {c : SubjectCollection} {s : Subject} :
    hasIdentity c s = true ↔ keyOf s ∈ keysOf c := by
  simp only [hasIdentity, List.any_eq_true, identityEq_iff, keysOf, List.mem_map]

theorem nodupKeys_pushIfNotExist {c : SubjectCollection} {s : Subject}
    (hn : (keysOf c).Nodup) : (keysOf (pushIfNotExist c s)).Nodup := by
  unfold pushIfNotExist
  by_cases hh : hasIdentity c s = true
  · simp only [hh, if_true]
    exact hn
  · have hmem : keyOf s ∉ keysOf c := fun hm => hh (hasIdentity_iff.mpr hm)
    rw [Bool.not_eq_true] at hh
    simp only [hh, Bool.false_eq_true, if_false]
    rw [show keysOf (c ++ [s]) = keysOf c ++ [keyOf s] from by simp [keysOf]]
    rw [List.nodup_append]
    refine ⟨hn, List.nodup_singleton _, ?_⟩
    intro a ha hb
    simp only [List.mem_singleton] at hb
    exact hmem (hb ▸ ha)

theorem phase1List_nodupKeys {ms : Metas} {h : Heap}
    {rec : Meta → Nat → SubjectCollection → Option SubjectCollection}
    (Hrec : ∀ vm r2 c c2, rec vm r2 c = some c2 → (keysOf c).Nodup → (keysOf c2).Nodup) :
    ∀ l coll c, phase1List ms h rec l coll = some c →
      (keysOf coll).Nodup → (keysOf c).Nodup := by
  intro l
  induction l with
  | nil =>
    intro coll c hc hn
    unfold phase1List at hc
    injection hc with he
    exact he ▸ hn
  | cons rv rest ih =>
    intro coll c hc hn
    unfold phase1List at hc
    cases hr : relPropRef rv.2 with
    | none => rw [hr] at hc; exact ih coll c hc hn
    | some r2 =>
      rw [hr] at hc
      by_cases hg : (rv.1.isCascadeInsert || rv.1.isCascadeUpdate) = true
      · simp only [hg, if_true] at hc
        cases hrec : rec (findMeta ms rv.1.inverseTarget) r2
            (pushIfNotExist coll (mkSubject h (findMeta ms rv.1.inverseTarget) r2)) with
        | none => rw [hrec] at hc; exact absurd hc (by simp)
        | some c2 =>
          rw [hrec] at hc
          exact ih c2 c hc (Hrec _ _ _ _ hrec (nodupKeys_pushIfNotExist hn))
      · rw [Bool.not_eq_true] at hg
        simp only [hg, Bool.false_eq_true, if_false] at hc
        exact ih coll c hc hn

theorem phase1_nodupKeys {ms : Metas} {h : Heap} :
    ∀ n m r coll c, findCascadeUpdateAndInsertEntitiesToLoad ms h n m r coll = some c →
      (keysOf coll).Nodup → (keysOf c).Nodup := by
  intro n
  induction n with
  | zero => intro m r coll c hc; exact absurd hc (by simp [findCascadeUpdateAndInsertEntitiesToLoad])
  | succ n ih =>
    intro m r coll c hc hn
    unfold findCascadeUpdateAndInsertEntitiesToLoad at hc
    exact phase1List_nodupKeys (fun vm r2 c1 c2 h1 h2 => ih vm r2 c1 c2 h1 h2) _ coll c hc hn

theorem keysOf_assignRow {meta : Meta} {t : String} {row : Row} :
    ∀ mp, keysOf (assignRow meta t row mp) = keysOf mp := by
  intro mp
  induction mp with
  | nil => rfl
  | cons s rest ih =>
    unfold assignRow
    by_cases hc : (s.meta.target == t && s.mixedId == getCol row meta.idCol) = true
    · simp [hc, keysOf, keyOf, setDb]
    · rw [Bool.not_eq_true] at hc
      simp only [hc, Bool.false_eq_true, if_false]
      simp only [keysOf, List.map_cons] at ih ⊢
      rw [ih]

theorem keysOf_assignRows {meta : Meta} {t : String} :
    ∀ rows mp, keysOf (assignRows meta t rows mp) = keysOf mp := by
  intro rows
  induction rows with
  | nil => intro mp; rfl
  | cons r rs ih =>
    intro mp
    show keysOf (assignRows meta t rs (assignRow meta t r mp)) = keysOf mp
    rw [ih, keysOf_assignRow]

theorem keysOf_populateList {ms : Metas} {st : Storage} :
    ∀ ts mp mp2, populateList ms st ts mp = Except.ok mp2 → keysOf mp2 = keysOf mp := by
  intro ts
  induction ts with
  | nil =>
    intro mp mp2 hok
    unfold populateList at hok
    injection hok with he
    rw [he]
  | cons t rest ih =>
    intro mp mp2 hok
    unfold populateList at hok
    cases hq : findByIdsQ st t (findMeta ms t).idCol
        ((mp.filter (fun s => s.meta.target == t)).map (fun s => s.mixedId)) with
    | error e => rw [hq] at hok; exact absurd hok (by simp)
    | ok rows =>
      rw [hq] at hok
      rw [ih _ _ hok, keysOf_assignRows]

/-- C3 amended: after Phase 1 and Phase 2 each distinct (type, identifier) pair
appears at most once in the collection; it is the Phase-3 removal walk that can
append a second occurrence of an already-present Subject. -/
theorem c3_nodup_keys_after_phase2 (ms : Metas) (storage : Storage) (h : Heap)
    (fuel : Nat) (rootMeta : Meta) (root : Nat) (m1 m2 : SubjectCollection)
    (h1 : findCascadeUpdateAndInsertEntitiesToLoad ms h fuel rootMeta root
        [mkSubject h rootMeta root] = some m1)
    (h2 : populateSubjectCollectionWithDatabaseEntities ms storage m1 = Except.ok m2) :
    (keysOf m2).Nodup := by
  have hn1 : (keysOf m1).Nodup :=
    phase1_nodupKeys fuel rootMeta root _ m1 h1 (by simp [keysOf])
  unfold populateSubjectCollectionWithDatabaseEntities at h2
  rw [keysOf_populateList _ _ _ h2]
  exact hn1

def soloMeta : Meta := ⟨"Solo", "id", []⟩

def msSolo : Metas := [soloMeta]

def heapSolo : Heap := [⟨[("id", JsVal.num 1)], []⟩]

def storageSolo : Storage :=
  ⟨[("Solo", [[("id", JsVal.num 1)]])], fun _ _ _ => false, fun _ => false⟩

def m1Solo : SubjectCollection := [mkSubject heapSolo soloMeta 0]

def m2Solo : SubjectCollection :=
  [⟨soloMeta, some 0, some [("id", JsVal.num 1)], JsVal.num 1, false⟩]

/-- Witness for the amended C3 on a concrete one-entity run. -/
theorem c3_nodup_keys_after_phase2_witness : (keysOf m2Solo).Nodup :=
  c3_nodup_keys_after_phase2 msSolo storageSolo heapSolo 1 soloMeta 0 m1Solo m2Solo
    (by rfl) (by rfl)

/-! ### Claim C5 -/

/-- C5: for an owner-side (many-to-one or one-to-one-owner) remove-cascade
relation, the Phase-3 check leaves the state untouched (no mark, no push, no
lookup) whenever the database row's relation identifier is present and non-null,
and likewise whenever the persisted relation identifier is null or equals the
database relation identifier. -/
theorem c5_owner_branch_no_removal (ms : Metas) (storage : Storage) (h : Heap)
    (rec : RecFun) (st : LoaderState) (sref : SubjRef) (rel : Rel) (dbRow : Row)
    (hrem : rel.isCascadeRemove = true)
    (hkind : rel.kind = RelKind.oneToOneOwner ∨ rel.kind = RelKind.manyToOne)
    (hdb : (getSubject st.loadMap sref).databaseEntity = some dbRow)
    (hcase : (∃ k, getOwnEntityRelationId rel dbRow = JsVal.num k) ∨
      persistValueRelationId h rel (getSubject st.loadMap sref) = some JsVal.null ∨
      persistValueRelationId h rel (getSubject st.loadMap sref) =
        some (getOwnEntityRelationId rel dbRow)) :
    findCascadeRemovedForRelation ms storage h rec sref rel st = some (Except.ok st) := by
  simp only [findCascadeRemovedForRelation, hrem, Bool.not_true, Bool.false_eq_true,
    if_false, hdb]
  cases hp : persistValueRelationId h rel (getSubject st.loadMap sref) with
  | none => rfl
  | some pId =>
    simp only []
    rw [if_pos hkind]
    by_cases hfirst : getOwnEntityRelationId rel dbRow ≠ JsVal.null ∧
        getOwnEntityRelationId rel dbRow ≠ JsVal.undef
    · rw [if_pos hfirst]
    · rw [if_neg hfirst]
      have hsnd : pId = JsVal.null ∨ pId = getOwnEntityRelationId rel dbRow := by
        rcases hcase with ⟨k, hk⟩ | hnull | heq
        · exact absurd (by rw [hk]; simp) hfirst
        · exact Or.inl (Option.some.inj (hp.symm.trans hnull))
        · exact Or.inr (Option.some.inj (hp.symm.trans heq))
      rw [if_pos hsnd]

def postSubjA : Subject :=
  ⟨postMetaA, some 0, some [("id", JsVal.num 1), ("categoryId", JsVal.num 5)],
    JsVal.num 1, false⟩

def stC5 : LoaderState := ⟨[postSubjA], []⟩

/-- Witness for C5 at the Scenario-A state after Phases 1 and 2. -/
theorem c5_owner_branch_no_removal_witness :
    findCascadeRemovedForRelation msA storageA heapA (fun _ _ => none)
        (SubjRef.inMap 0) catRel stC5 = some (Except.ok stC5) :=
  c5_owner_branch_no_removal msA storageA heapA (fun _ _ => none) stC5
    (SubjRef.inMap 0) catRel [("id", JsVal.num 1), ("categoryId", JsVal.num 5)]
    (by rfl) (Or.inr rfl) (by rfl) (Or.inl ⟨5, by rfl⟩)

/-! ### Claim C6 -/

/-- C6: with a persisted value present, a remove-cascade relation whose computed
persisted relation identifier is undefined is skipped entirely (state unchanged,
no lookup, no mark), while a null identifier is not skipped: on the non-owning
branch with the guards passed it goes on to issue the inverse-side storage
lookup.  Undefined (untouched) and null (cleared) are distinguished exactly. -/
theorem c6_undefined_skipped_null_proceeds (ms : Metas) (storage : Storage)
    (h : Heap) (rec : RecFun) (st : LoaderState) (sref : SubjRef)
    (rel1 rel2 : Rel) (dbRow : Row) (e : Nat)
    (hdb : (getSubject st.loadMap sref).databaseEntity = some dbRow)
    (hent : (getSubject st.loadMap sref).entity = some e)
    (h1rem : rel1.isCascadeRemove = true)
    (h1undef : persistValueRelationId h rel1 (getSubject st.loadMap sref) = none)
    (h2rem : rel2.isCascadeRemove = true)
    (h2kind : rel2.kind = RelKind.oneToOneNotOwner)
    (h2pid : persistValueRelationId h rel2 (getSubject st.loadMap sref) = some JsVal.null)
    (h2dbid : getOwnEntityRelationId rel2 dbRow = JsVal.null)
    (h2find : st.loadMap.findIdx? (relatedSubjectPred rel2
        (findMeta ms rel2.inverseTarget).target (getOwnEntityRelationId rel2 dbRow)) = none)
    (h2fetch : repoGetSingle storage (findMeta ms rel2.inverseTarget).target
        rel2.inverseSideProperty (getOwnEntityRelationIdOfEntity h rel2 e) = Except.ok none) :
    findCascadeRemovedForRelation ms storage h rec sref rel1 st = some (Except.ok st) ∧
    findCascadeRemovedForRelation ms storage h rec sref rel2 st =
      some (Except.ok ⟨st.loadMap, st.queries ++
        [((findMeta ms rel2.inverseTarget).target, rel2.inverseSideProperty,
          getOwnEntityRelationIdOfEntity h rel2 e)]⟩) := by
  constructor
  · simp only [findCascadeRemovedForRelation, h1rem, Bool.not_true, Bool.false_eq_true,
      if_false, hdb, h1undef]
  · simp only [findCascadeRemovedForRelation, h2rem, Bool.not_true, Bool.false_eq_true,
      if_false, hdb, h2pid]
    rw [if_neg (by rw [h2kind]; simp)]
    rw [if_pos (by rw [h2kind])]
    rw [if_neg (by rw [h2dbid]; simp)]
    rw [h2find]
    simp only [hent]
    rw [h2fetch]

/-- A remove-cascade relation whose property is untouched (undefined) on the
persisted entity of the C6 witness. -/
def undefRel : Rel :=
  ⟨"untouched", RelKind.manyToOne, false, false, true, "X", "id", "", "xId", "id"⟩

def detailsSubjC6 : Subject :=
  ⟨detailsMeta3, some 0, some [("id", JsVal.num 1), ("alt", JsVal.null)],
    JsVal.num 1, false⟩

def stC6 : LoaderState := ⟨[detailsSubjC6], []⟩

def storageC6 : Storage := ⟨[("Post", [])], fun _ _ _ => false, fun _ => false⟩

/-- Witness for C6 on one concrete subject carrying both an untouched and a
cleared remove-cascade relation. -/
theorem c6_undefined_skipped_null_proceeds_witness :
    findCascadeRemovedForRelation ms3 storageC6 heap3 (fun _ _ => none)
        (SubjRef.inMap 0) undefRel stC6 = some (Except.ok stC6) ∧
    findCascadeRemovedForRelation ms3 storageC6 heap3 (fun _ _ => none)
        (SubjRef.inMap 0) postRel3 stC6 =
      some (Except.ok ⟨stC6.loadMap, stC6.queries ++
        [((findMeta ms3 postRel3.inverseTarget).target, postRel3.inverseSideProperty,
          getOwnEntityRelationIdOfEntity heap3 postRel3 0)]⟩) :=
  c6_undefined_skipped_null_proceeds ms3 storageC6 heap3 (fun _ _ => none) stC6
    (SubjRef.inMap 0) undefRel postRel3 [("id", JsVal.num 1), ("alt", JsVal.null)] 0
    (by rfl) (by rfl) (by rfl) (by rfl) (by rfl) (by rfl) (by rfl) (by rfl)
    (by rfl) (by rfl)

/-! ### Claim C8 -/

/-- C8: for a non-owning one-to-one remove-cascade relation, when the
inverse-side storage lookup is issued and returns no matching row, the relation
check completes without error and without marking or adding any Subject — the
collection is exactly as before, only the lookup is recorded. -/
theorem c8_nonowner_missing_row_is_no_op (ms : Metas) (storage : Storage)
    (h : Heap) (rec : RecFun) (st : LoaderState) (sref : SubjRef) (rel : Rel)
    (dbRow : Row) (e : Nat) (pId : JsVal)
    (hrem : rel.isCascadeRemove = true)
    (hkind : rel.kind = RelKind.oneToOneNotOwner)
    (hdb : (getSubject st.loadMap sref).databaseEntity = some dbRow)
    (hpid : persistValueRelationId h rel (getSubject st.loadMap sref) = some pId)
    (hguard : getOwnEntityRelationId rel dbRow = JsVal.null ∨
      getOwnEntityRelationId rel dbRow = JsVal.undef)
    (hfind : st.loadMap.findIdx? (relatedSubjectPred rel
        (findMeta ms rel.inverseTarget).target (getOwnEntityRelationId rel dbRow)) = none)
    (hent : (getSubject st.loadMap sref).entity = some e)
    (hfetch : repoGetSingle storage (findMeta ms rel.inverseTarget).target
        rel.inverseSideProperty (getOwnEntityRelationIdOfEntity h rel e) = Except.ok none) :
    findCascadeRemovedForRelation ms storage h rec sref rel st =
      some (Except.ok ⟨st.loadMap, st.queries ++
        [((findMeta ms rel.inverseTarget).target, rel.inverseSideProperty,
          getOwnEntityRelationIdOfEntity h rel e)]⟩) := by
  simp only [findCascadeRemovedForRelation, hrem, Bool.not_true, Bool.false_eq_true,
    if_false, hdb, hpid]
  rw [if_neg (by rw [hkind]; simp)]
  rw [if_pos (by rw [hkind])]
  rw [if_neg (by rcases hguard with hg | hg <;> rw [hg] <;> simp)]
  rw [hfind]
  simp only [hent]
  rw [hfetch]

/-- Witness for C8: the C6 witness state, whose inverse-side lookup finds no Post
row in storage. -/
theorem c8_nonowner_missing_row_is_no_op_witness :
    findCascadeRemovedForRelation ms3 storageC6 heap3 (fun _ _ => none)
        (SubjRef.inMap 0) postRel3 stC6 =
      some (Except.ok ⟨stC6.loadMap, stC6.queries ++
        [((findMeta ms3 postRel3.inverseTarget).target, postRel3.inverseSideProperty,
          getOwnEntityRelationIdOfEntity heap3 postRel3 0)]⟩) :=
  c8_nonowner_missing_row_is_no_op ms3 storageC6 heap3 (fun _ _ => none) stC6
    (SubjRef.inMap 0) postRel3 [("id", JsVal.num 1), ("alt", JsVal.null)] 0 JsVal.null
    (by rfl) (by rfl) (by rfl) (by rfl) (Or.inl (by rfl)) (by rfl) (by rfl) (by rfl)

/-! ### Claim C10 -/

/-- C10 scenario: like the C3 scenario, but the fetched Post additionally has a
non-owning one-to-one remove-cascade relation to Photo. -/
def photoRel : Rel :=
  ⟨"photo", RelKind.oneToOneNotOwner, false, false, true, "Photo", "", "postId", "palt", "id"⟩

def postMeta10 : Meta := ⟨"Post", "id", [photoRel]⟩

def photoMeta10 : Meta := ⟨"Photo", "id", []⟩

def ms10 : Metas := [detailsMeta3, postMeta10, photoMeta10]

def run10 : P3Res := load ms10 storage3 heap3 6 detailsMeta3 0

/-- C10 counterexample: a full load run in which the Phase-3 walk, recursing into
a Subject discovered during removal detection (which has only a database value),
reaches the non-owning one-to-one lookup and reads the relation identifier off
the absent persisted value — the run aborts with the absent-entity read. -/
theorem c10_absent_read_counterexample :
    loadErr run10 = some LoadErr.absentEntityRead := by
  rfl

/-- C10 amended: the persisted value is read behind a guard when computing the
persisted relation identifier, but the non-owning one-to-one branch evaluates
getOwnEntityRelationId(subject.entity) for its lookup parameter without any
guard; for a Subject with only a database value that read of the absent
persisted value is exactly where the walk fails. -/
theorem c10_absent_entity_read_characterization (ms : Metas) (storage : Storage)
    (h : Heap) (rec : RecFun) (st : LoaderState) (sref : SubjRef) (rel : Rel)
    (dbRow : Row)
    (hrem : rel.isCascadeRemove = true)
    (hkind : rel.kind = RelKind.oneToOneNotOwner)
    (hdb : (getSubject st.loadMap sref).databaseEntity = some dbRow)
    (hent : (getSubject st.loadMap sref).entity = none)
    (hguard : getOwnEntityRelationId rel dbRow = JsVal.null ∨
      getOwnEntityRelationId rel dbRow = JsVal.undef)
    (hfind : st.loadMap.findIdx? (relatedSubjectPred rel
        (findMeta ms rel.inverseTarget).target (getOwnEntityRelationId rel dbRow)) = none) :
    findCascadeRemovedForRelation ms storage h rec sref rel st =
      some (Except.error LoadErr.absentEntityRead) := by
  have hpid : persistValueRelationId h rel (getSubject st.loadMap sref) =
      some JsVal.null := by
    unfold persistValueRelationId
    rw [hent]
  simp only [findCascadeRemovedForRelation, hrem, Bool.not_true, Bool.false_eq_true,
    if_false, hdb, hpid]
  rw [if_neg (by rw [hkind]; simp)]
  rw [if_pos (by rw [hkind])]
  rw [if_neg (by rcases hguard with hg | hg <;> rw [hg] <;> simp)]
  rw [hfind]
  simp only [hent]

def postSubjC10 : Subject :=
  ⟨postMeta10, none, some [("id", JsVal.num 9), ("detailsId", JsVal.num 7)],
    JsVal.num 9, true⟩

def stC10 : LoaderState := ⟨[postSubjC10], []⟩

/-- Witness for the amended C10 at the concrete database-only Post subject. -/
theorem c10_absent_entity_read_characterization_witness :
    findCascadeRemovedForRelation ms10 storage3 heap3 (fun _ _ => none)
        (SubjRef.inMap 0) photoRel stC10 = some (Except.error LoadErr.absentEntityRead) :=
  c10_absent_entity_read_characterization ms10 storage3 heap3 (fun _ _ => none) stC10
    (SubjRef.inMap 0) photoRel [("id", JsVal.num 9), ("detailsId", JsVal.num 7)]
    (by rfl) (by rfl) (by rfl) (by rfl) (Or.inr (by rfl)) (by rfl)

/-! ### Claim C4 -/

/-- A Phase-3 recursion step on a detached subject whose metadata declares no
relations leaves the state unchanged. -/
theorem findCascadeRemoved_detached_no_relations (ms : Metas) (storage : Storage)
    (h : Heap) (n : Nat) (s : Subject) (st : LoaderState)
    (hrels : s.meta.relations = []) :
    findCascadeRemovedEntitiesToLoad ms storage h (n + 1) (SubjRef.detached s) st =
      some (Except.ok st) := by
  unfold findCascadeRemovedEntitiesToLoad
  rw [show getSubject st.loadMap (SubjRef.detached s) = s from rfl]
  rw [hrels]
  rfl

/-- C4: in the non-owning one-to-one branch, when the related entity is absent
from the collection and the inverse-side fetch returns a row that is wrapped in a
new Subject, the element appended to the collection is the original Subject under
examination; no Subject wrapping the fetched row without a persisted value is
ever in the resulting collection. -/
theorem c4_push_appends_original_subject (ms : Metas) (storage : Storage)
    (h : Heap) (n : Nat) (st : LoaderState) (sref : SubjRef) (rel : Rel)
    (dbRow row : Row) (e : Nat)
    (hrem : rel.isCascadeRemove = true)
    (hkind : rel.kind = RelKind.oneToOneNotOwner)
    (hdb : (getSubject st.loadMap sref).databaseEntity = some dbRow)
    (hent : (getSubject st.loadMap sref).entity = some e)
    (hprop : getRelProp h e rel.propertyName = RelProp.null)
    (hguard : getOwnEntityRelationId rel dbRow = JsVal.null ∨
      getOwnEntityRelationId rel dbRow = JsVal.undef)
    (hfind : st.loadMap.findIdx? (relatedSubjectPred rel
        (findMeta ms rel.inverseTarget).target (getOwnEntityRelationId rel dbRow)) = none)
    (hfetch : repoGetSingle storage (findMeta ms rel.inverseTarget).target
        rel.inverseSideProperty (getOwnEntityRelationIdOfEntity h rel e) =
        Except.ok (some row))
    (hnorels : (findMeta ms rel.inverseTarget).relations = [])
    (hfresh : ∀ s2 ∈ st.loadMap, ¬(s2.entity = none ∧ s2.databaseEntity = some row)) :
    findCascadeRemovedForRelation ms storage h
        (fun sr s2 => findCascadeRemovedEntitiesToLoad ms storage h (n + 1) sr s2)
        sref rel st =
      some (Except.ok ⟨st.loadMap ++ [getSubject st.loadMap sref],
        st.queries ++ [((findMeta ms rel.inverseTarget).target, rel.inverseSideProperty,
          getOwnEntityRelationIdOfEntity h rel e)]⟩) ∧
    ∀ s2 ∈ st.loadMap ++ [getSubject st.loadMap sref],
      ¬(s2.entity = none ∧ s2.databaseEntity = some row) := by
  have hpid : persistValueRelationId h rel (getSubject st.loadMap sref) =
      some JsVal.null := by
    unfold persistValueRelationId
    rw [hent]
    simp only [hprop]
  constructor
  · simp only [findCascadeRemovedForRelation, hrem, Bool.not_true, Bool.false_eq_true,
      if_false, hdb, hpid]
    rw [if_neg (by rw [hkind]; simp)]
    rw [if_pos (by rw [hkind])]
    rw [if_neg (by rcases hguard with hg | hg <;> rw [hg] <;> simp)]
    rw [hfind]
    simp only [hent]
    rw [hfetch]
    simp only [jsTruthy, Bool.false_and, Bool.false_eq_true, if_false]
    rw [findCascadeRemoved_detached_no_relations ms storage h n _ _
      (by simp [markRemoved, hnorels])]
  · intro s2 hs2
    rcases List.mem_append.mp hs2 with hin | hone
    · exact hfresh s2 hin
    · rw [List.mem_singleton] at hone
      rintro ⟨he, _⟩
      rw [hone, hent] at he
      exact Option.noConfusion he

def detailsSubjC4 : Subject :=
  ⟨detailsMeta3, some 0, some [("id", JsVal.num 1)], JsVal.num 1, false⟩

def stC4 : LoaderState := ⟨[detailsSubjC4], []⟩

def postRowC4 : Row := [("id", JsVal.num 9), ("detailsId", JsVal.num 7)]

/-- Witness for C4 at the concrete state the C3 scenario reaches after Phases 1
and 2. -/
theorem c4_push_appends_original_subject_witness :
    findCascadeRemovedForRelation ms3 storage3 heap3
        (fun sr s2 => findCascadeRemovedEntitiesToLoad ms3 storage3 heap3 1 sr s2)
        (SubjRef.inMap 0) postRel3 stC4 =
      some (Except.ok ⟨stC4.loadMap ++ [getSubject stC4.loadMap (SubjRef.inMap 0)],
        stC4.queries ++ [((findMeta ms3 postRel3.inverseTarget).target,
          postRel3.inverseSideProperty,
          getOwnEntityRelationIdOfEntity heap3 postRel3 0)]⟩) ∧
    ∀ s2 ∈ stC4.loadMap ++ [getSubject stC4.loadMap (SubjRef.inMap 0)],
      ¬(s2.entity = none ∧ s2.databaseEntity = some postRowC4) :=
  c4_push_appends_original_subject ms3 storage3 heap3 0 stC4 (SubjRef.inMap 0)
    postRel3 [("id", JsVal.num 1)] postRowC4 0
    (by rfl) (by rfl) (by rfl) (by rfl) (by rfl) (Or.inr (by rfl)) (by rfl) (by rfl)
    (by rfl) (by decide)

/-! ### Claim C9 -/

theorem mem_pushIfNotExist_of_mem {c : SubjectCollection} {s x : Subject}
    (hx : x ∈ c) : x ∈ pushIfNotExist c s := by
  unfold pushIfNotExist
  split
  · exact hx
  · exact List.mem_append_left _ hx

theorem phase1List_mem_mono {ms : Metas} {h : Heap}
    {rec : Meta → Nat → SubjectCollection → Option SubjectCollection}
    (Hrec : ∀ vm r2 c c2, rec vm r2 c = some c2 → ∀ x ∈ c, x ∈ c2) :
    ∀ l coll c, phase1List ms h rec l coll = some c → ∀ x ∈ coll, x ∈ c := by
  intro l
  induction l with
  | nil =>
    intro coll c hc x hx
    unfold phase1List at hc
    injection hc with he
    exact he ▸ hx
  | cons rv rest ih =>
    intro coll c hc x hx
    unfold phase1List at hc
    cases hr : relPropRef rv.2 with
    | none => rw [hr] at hc; exact ih coll c hc x hx
    | some r2 =>
      rw [hr] at hc
      by_cases hg : (rv.1.isCascadeInsert || rv.1.isCascadeUpdate) = true
      · simp only [hg, if_true] at hc
        cases hrec : rec (findMeta ms rv.1.inverseTarget) r2
            (pushIfNotExist coll (mkSubject h (findMeta ms rv.1.inverseTarget) r2)) with
        | none => rw [hrec] at hc; exact absurd hc (by simp)
        | some c2 =>
          rw [hrec] at hc
          exact ih c2 c hc x (Hrec _ _ _ _ hrec x (mem_pushIfNotExist_of_mem hx))
      · rw [Bool.not_eq_true] at hg
        simp only [hg, Bool.false_eq_true, if_false] at hc
        exact ih coll c hc x hx

theorem phase1_mem_mono {ms : Metas} {h : Heap} :
    ∀ n m r coll c, findCascadeUpdateAndInsertEntitiesToLoad ms h n m r coll = some c →
      ∀ x ∈ coll, x ∈ c := by
  intro n
  induction n with
  | zero =>
    intro m r coll c hc
    exact absurd hc (by simp [findCascadeUpdateAndInsertEntitiesToLoad])
  | succ n ih =>
    intro m r coll c hc
    unfold findCascadeUpdateAndInsertEntitiesToLoad at hc
    exact phase1List_mem_mono (fun vm r2 c1 c2 hr => ih vm r2 c1 c2 hr) _ coll c hc

theorem target_mem_collectTargets {mp : SubjectCollection} {s : Subject}
    (hs : s ∈ mp) : s.meta.target ∈ collectTargets mp := by
  unfold collectTargets
  rw [List.mem_dedup]
  exact List.mem_map.mpr ⟨s, hs, rfl⟩

theorem populateList_error_of_fail {ms : Metas} {st : Storage} :
    ∀ ts mp t, t ∈ ts → st.failByIds t = true →
      ∃ t2, populateList ms st ts mp = Except.error (LoadErr.fetchFail t2) := by
  intro ts
  induction ts with
  | nil => intro mp t hmem; exact absurd hmem (by simp)
  | cons t0 rest ih =>
    intro mp t hmem hf
    by_cases h0 : st.failByIds t0 = true
    · refine ⟨t0, ?_⟩
      simp only [populateList, findByIdsQ, h0, if_true]
    · have ht : t ∈ rest := by
        rcases List.mem_cons.mp hmem with he | hr
        · exact absurd (he ▸ hf) h0
        · exact hr
      have hok : findByIdsQ st t0 (findMeta ms t0).idCol
          ((mp.filter (fun s => s.meta.target == t0)).map (fun s => s.mixedId)) =
          Except.ok ((tableRows st t0).filter (fun row =>
            ((mp.filter (fun s => s.meta.target == t0)).map (fun s => s.mixedId)).any
              (fun i => sqlEq i (getCol row (findMeta ms t0).idCol)))) := by
        unfold findByIdsQ
        rw [if_neg (by rw [Bool.not_eq_true] at h0; simp [h0])]
      obtain ⟨t2, ht2⟩ := ih (assignRows (findMeta ms t0) t0 _ mp) t ht hf
      refine ⟨t2, ?_⟩
      simp only [populateList, hok]
      exact ht2

/-- When Phase 1 terminates and the batched Phase-2 fetch for the root's entity
type fails, the whole load call rejects with a fetch failure. -/
theorem load_rejects_on_phase2_failure (ms : Metas) (storage : Storage) (h : Heap)
    (fuel : Nat) (rootMeta : Meta) (root : Nat) (m1 : SubjectCollection)
    (h1 : findCascadeUpdateAndInsertEntitiesToLoad ms h fuel rootMeta root
        [mkSubject h rootMeta root] = some m1)
    (h2 : storage.failByIds rootMeta.target = true) :
    ∃ t, load ms storage h fuel rootMeta root =
      some (Except.error (LoadErr.fetchFail t)) := by
  have hroot : mkSubject h rootMeta root ∈ m1 :=
    phase1_mem_mono fuel rootMeta root _ m1 h1 _ (List.mem_singleton_self _)
  have htarget : rootMeta.target ∈ collectTargets m1 := by
    have hmem := target_mem_collectTargets hroot
    simpa [mkSubject] using hmem
  obtain ⟨t2, ht2⟩ :=
    @populateList_error_of_fail ms storage (collectTargets m1) m1
      rootMeta.target htarget h2
  refine ⟨t2, ?_⟩
  simp only [load, h1]
  simp only [populateSubjectCollectionWithDatabaseEntities, ht2]

def storageFailSolo : Storage :=
  ⟨[("Solo", [[("id", JsVal.num 1)]])], fun _ _ _ => false, fun _ => true⟩

/-- Single-row lookups recorded in the audit trace that the failure oracle does
not flag. -/
def queriesOk (storage : Storage) (qs : List (String × String × JsVal)) : Prop :=
  ∀ q ∈ qs, storage.failSingle q.1 q.2.1 q.2.2 = false

theorem okStateEq {a b : LoaderState}
    (hab : (some (Except.ok a) : P3Res) = some (Except.ok b)) : a = b := by
  injection hab with h1
  injection h1

theorem repoGetSingle_ok_not_fail {st : Storage} {t col : String} {v : JsVal}
    {o : Option Row} (hok : repoGetSingle st t col v = Except.ok o) :
    st.failSingle t col v = false := by
  by_cases hf : st.failSingle t col v = true
  · unfold repoGetSingle at hok
    rw [if_pos hf] at hok
    exact Except.noConfusion hok
  · rw [Bool.not_eq_true] at hf
    exact hf

theorem queriesOk_append {storage : Storage} {qs : List (String × String × JsVal)}
    {t c : String} {v : JsVal} (hq : queriesOk storage qs)
    (hv : storage.failSingle t c v = false) :
    queriesOk storage (qs ++ [(t, c, v)]) := by
  intro q hmem
  rcases List.mem_append.mp hmem with hin | hone
  · exact hq q hin
  · rw [List.mem_singleton] at hone
    subst hone
    exact hv

/-- Every Phase-3 relation step that completes only records lookups the oracle
accepts: a failing lookup would have aborted the step with an error instead. -/
theorem phase3Rel_queriesOk {ms : Metas} {storage : Storage} {h : Heap}
    {rec : RecFun}
    (Hrec : ∀ sr s s2, rec sr s = some (Except.ok s2) →
      queriesOk storage s.queries → queriesOk storage s2.queries) :
    ∀ sref rel st st2,
      findCascadeRemovedForRelation ms storage h rec sref rel st = some (Except.ok st2) →
      queriesOk storage st.queries → queriesOk storage st2.queries := by
  intro sref rel st st2 hres hq
  unfold findCascadeRemovedForRelation at hres
  simp only [] at hres
  split at hres
  · exact okStateEq hres ▸ hq
  · split at hres
    · exact okStateEq hres ▸ hq
    · split at hres
      · exact okStateEq hres ▸ hq
      · split at hres
        · split at hres
          · exact okStateEq hres ▸ hq
          · split at hres
            · exact okStateEq hres ▸ hq
            · split at hres
              · exact Hrec _ _ _ hres hq
              · split at hres
                · exact absurd hres (by simp)
                · rename_i heq
                  exact okStateEq hres ▸
                    queriesOk_append hq (repoGetSingle_ok_not_fail heq)
                · rename_i row heq
                  exact Hrec _ _ _ hres
                    (queriesOk_append hq (repoGetSingle_ok_not_fail heq))
        · split at hres
          · split at hres
            · exact okStateEq hres ▸ hq
            · split at hres
              · split at hres
                · exact okStateEq hres ▸ hq
                · split at hres
                  · exact okStateEq hres ▸ hq
                  · exact Hrec _ _ _ hres hq
              · split at hres
                · exact absurd hres (by simp)
                · split at hres
                  · exact absurd hres (by simp)
                  · rename_i heq
                    exact okStateEq hres ▸
                      queriesOk_append hq (repoGetSingle_ok_not_fail heq)
                  · rename_i row heq
                    split at hres
                    · exact okStateEq hres ▸
                        queriesOk_append hq (repoGetSingle_ok_not_fail heq)
                    · exact Hrec _ _ _ hres
                        (queriesOk_append hq (repoGetSingle_ok_not_fail heq))
          · exact okStateEq hres ▸ hq

theorem phase3RelList_queriesOk {ms : Metas} {storage : Storage} {h : Heap}
    {rec : RecFun}
    (Hrec : ∀ sr s s2, rec sr s = some (Except.ok s2) →
      queriesOk storage s.queries → queriesOk storage s2.queries) :
    ∀ l sref st st2,
      findCascadeRemovedRelList ms storage h rec sref l st = some (Except.ok st2) →
      queriesOk storage st.queries → queriesOk storage st2.queries := by
  intro l
  induction l with
  | nil =>
    intro sref st st2 hres hq
    unfold findCascadeRemovedRelList at hres
    exact okStateEq hres ▸ hq
  | cons rel rest ih =>
    intro sref st st2 hres hq
    unfold findCascadeRemovedRelList at hres
    cases hstep : findCascadeRemovedForRelation ms storage h rec sref rel st with
    | none => rw [hstep] at hres; exact absurd hres (by simp)
    | some r =>
      cases r with
      | error e => rw [hstep] at hres; exact absurd hres (by simp)
      | ok stm =>
        rw [hstep] at hres
        exact ih sref stm st2 hres (phase3Rel_queriesOk Hrec sref rel st stm hstep hq)

theorem findCascadeRemoved_queriesOk {ms : Metas} {storage : Storage} {h : Heap} :
    ∀ n sref st st2,
      findCascadeRemovedEntitiesToLoad ms storage h n sref st = some (Except.ok st2) →
      queriesOk storage st.queries → queriesOk storage st2.queries := by
  intro n
  induction n with
  | zero =>
    intro sref st st2 hres
    exact absurd hres (by simp [findCascadeRemovedEntitiesToLoad])
  | succ n ih =>
    intro sref st st2 hres hq
    unfold findCascadeRemovedEntitiesToLoad at hres
    exact phase3RelList_queriesOk (fun sr s s2 hr => ih sr s s2 hr) _ sref st st2 hres hq

theorem removeRunList_queriesOk {ms : Metas} {storage : Storage} {h : Heap}
    {fuel : Nat} :
    ∀ idx st st2, removeRunList ms storage h fuel idx st = some (Except.ok st2) →
      queriesOk storage st.queries → queriesOk storage st2.queries := by
  intro idx
  induction idx with
  | nil =>
    intro st st2 hres hq
    unfold removeRunList at hres
    exact okStateEq hres ▸ hq
  | cons i rest ih =>
    intro st st2 hres hq
    unfold removeRunList at hres
    cases hstep : findCascadeRemovedEntitiesToLoad ms storage h fuel (SubjRef.inMap i) st with
    | none => rw [hstep] at hres; exact absurd hres (by simp)
    | some r =>
      cases r with
      | error e => rw [hstep] at hres; exact absurd hres (by simp)
      | ok stm =>
        rw [hstep] at hres
        exact ih stm st2 hres
          (findCascadeRemoved_queriesOk fuel (SubjRef.inMap i) st stm hstep hq)

theorem load_ok_queriesOk (ms : Metas) (storage : Storage) (h : Heap) (fuel : Nat)
    (rootMeta : Meta) (root : Nat) (s : LoaderState)
    (hok : load ms storage h fuel rootMeta root = some (Except.ok s)) :
    queriesOk storage s.queries := by
  unfold load at hok
  simp only [] at hok
  cases h1 : findCascadeUpdateAndInsertEntitiesToLoad ms h fuel rootMeta root
      [mkSubject h rootMeta root] with
  | none => rw [h1] at hok; exact absurd hok (by simp)
  | some m1 =>
    rw [h1] at hok
    simp only [] at hok
    cases h2 : populateSubjectCollectionWithDatabaseEntities ms storage m1 with
    | error e => rw [h2] at hok; exact absurd hok (by simp)
    | ok m2 =>
      rw [h2] at hok
      exact removeRunList_queriesOk _ _ _ hok (fun q hmem => absurd hmem (by simp))

/-- C9: failure semantics of the load call.  First part: when Phase 1 terminates
and the batched Phase-2 fetch for the root's type fails, load rejects with that
fetch failure and no collection is delivered.  Second part (no partial success):
when load resolves successfully, every Phase-3 single-row lookup it issued was a
non-failing one — a failing lookup always aborts the whole call, because every
error short-circuits each surrounding walk. -/
theorem c9_fetch_failure_rejects_load :
    (∀ (ms : Metas) (storage : Storage) (h : Heap) (fuel : Nat) (rootMeta : Meta)
      (root : Nat) (m1 : SubjectCollection),
      findCascadeUpdateAndInsertEntitiesToLoad ms h fuel rootMeta root
        [mkSubject h rootMeta root] = some m1 →
      storage.failByIds rootMeta.target = true →
      ∃ t, load ms storage h fuel rootMeta root =
        some (Except.error (LoadErr.fetchFail t))) ∧
    (∀ (ms : Metas) (storage : Storage) (h : Heap) (fuel : Nat) (rootMeta : Meta)
      (root : Nat) (s : LoaderState),
      load ms storage h fuel rootMeta root = some (Except.ok s) →
      queriesOk storage s.queries) :=
  ⟨load_rejects_on_phase2_failure, load_ok_queriesOk⟩

def detailsSubjRun3 : Subject :=
  ⟨detailsMeta3, some 0, some [("id", JsVal.num 1)], JsVal.num 1, false⟩

/-- The state the C3 scenario run resolves with. -/
def stFinal3 : LoaderState :=
  ⟨[detailsSubjRun3, detailsSubjRun3], [("Post", "detailsId", JsVal.num 7)]⟩

/-- Witness for C9: a failing batched fetch rejects the one-entity run, and the
resolved C3 scenario run recorded only non-failing lookups. -/
theorem c9_fetch_failure_rejects_load_witness :
    (∃ t, load msSolo storageFailSolo heapSolo 1 soloMeta 0 =
      some (Except.error (LoadErr.fetchFail t))) ∧
    queriesOk storage3 stFinal3.queries :=
  ⟨c9_fetch_failure_rejects_load.1 msSolo storageFailSolo heapSolo 1 soloMeta 0
      [mkSubject heapSolo soloMeta 0] (by rfl) (by rfl),
   c9_fetch_failure_rejects_load.2 ms3 storage3 heap3 6 detailsMeta3 0 stFinal3 (by rfl)⟩

/-! ### Claim C7 -/

/-- Gated reachability: the (metadata, reference) pairs reachable from a root
entity through one or more Phase-1 traversal steps, where each step follows a
defined relation value whose relation has insert- or update-cascade enabled. -/
inductive GatedReach (ms : Metas) (h : Heap) : Meta → Nat → Meta → Nat → Prop where
  | step : ∀ m a rel b, rel ∈ m.relations →
      getRelProp h a rel.propertyName = RelProp.ref b →
      (rel.isCascadeInsert || rel.isCascadeUpdate) = true →
      GatedReach ms h m a (findMeta ms rel.inverseTarget) b
  | head : ∀ m a rel x vm b, rel ∈ m.relations →
      getRelProp h a rel.propertyName = RelProp.ref x →
      (rel.isCascadeInsert || rel.isCascadeUpdate) = true →
      GatedReach ms h (findMeta ms rel.inverseTarget) x vm b →
      GatedReach ms h m a vm b

theorem mem_pushIfNotExist_elim {c : SubjectCollection} {s x : Subject}
    (hx : x ∈ pushIfNotExist c s) : x ∈ c ∨ x = s := by
  unfold pushIfNotExist at hx
  split at hx
  · exact Or.inl hx
  · rcases List.mem_append.mp hx with hin | hone
    · exact Or.inl hin
    · exact Or.inr (List.mem_singleton.mp hone)

theorem phase1List_mem_sound {ms : Metas} {h : Heap}
    {rec : Meta → Nat → SubjectCollection → Option SubjectCollection}
    {m : Meta} {a : Nat}
    (Hrec : ∀ vm r2 coll c, rec vm r2 coll = some c → ∀ s ∈ c, s ∈ coll ∨
      ∃ vm2 b, GatedReach ms h vm r2 vm2 b ∧ s = mkSubject h vm2 b) :
    ∀ l coll c, phase1List ms h rec l coll = some c →
      (∀ rv ∈ l, rv.1 ∈ m.relations ∧ rv.2 = getRelProp h a rv.1.propertyName) →
      ∀ s ∈ c, s ∈ coll ∨
        ∃ vm b, GatedReach ms h m a vm b ∧ s = mkSubject h vm b := by
  intro l
  induction l with
  | nil =>
    intro coll c hc _ s hs
    unfold phase1List at hc
    injection hc with he
    exact Or.inl (he ▸ hs)
  | cons rv rest ih =>
    intro coll c hc hl s hs
    have hlrest : ∀ rv2 ∈ rest, rv2.1 ∈ m.relations ∧
        rv2.2 = getRelProp h a rv2.1.propertyName :=
      fun rv2 h2 => hl rv2 (List.mem_cons_of_mem rv h2)
    unfold phase1List at hc
    cases hr : relPropRef rv.2 with
    | none =>
      rw [hr] at hc
      exact ih coll c hc hlrest s hs
    | some r2 =>
      rw [hr] at hc
      by_cases hg : (rv.1.isCascadeInsert || rv.1.isCascadeUpdate) = true
      · simp only [hg, if_true] at hc
        cases hrec : rec (findMeta ms rv.1.inverseTarget) r2
            (pushIfNotExist coll (mkSubject h (findMeta ms rv.1.inverseTarget) r2)) with
        | none => rw [hrec] at hc; exact absurd hc (by simp)
        | some c2 =>
          rw [hrec] at hc
          obtain ⟨hin, hval⟩ := hl rv (List.mem_cons_self rv rest)
          have hgp : getRelProp h a rv.1.propertyName = RelProp.ref r2 := by
            rw [← hval]
            cases hv : rv.2 <;> rw [hv] at hr <;> simp [relPropRef] at hr
            rw [hr]
          rcases ih c2 c hc hlrest s hs with hs2 | hreach
          · rcases Hrec _ _ _ _ hrec s hs2 with hs3 | ⟨vm2, b, hre, hmk⟩
            · rcases mem_pushIfNotExist_elim hs3 with hin2 | heq
              · exact Or.inl hin2
              · exact Or.inr ⟨findMeta ms rv.1.inverseTarget, r2,
                  GatedReach.step m a rv.1 r2 hin hgp hg, heq⟩
            · exact Or.inr ⟨vm2, b,
                GatedReach.head m a rv.1 r2 vm2 b hin hgp hg hre, hmk⟩
          · exact Or.inr hreach
      · rw [Bool.not_eq_true] at hg
        simp only [hg, Bool.false_eq_true, if_false] at hc
        exact ih coll c hc hlrest s hs

theorem phase1_mem_sound {ms : Metas} {h : Heap} :
    ∀ n m a coll c, findCascadeUpdateAndInsertEntitiesToLoad ms h n m a coll = some c →
      ∀ s ∈ c, s ∈ coll ∨
        ∃ vm b, GatedReach ms h m a vm b ∧ s = mkSubject h vm b := by
  intro n
  induction n with
  | zero =>
    intro m a coll c hc
    exact absurd hc (by simp [findCascadeUpdateAndInsertEntitiesToLoad])
  | succ n ih =>
    intro m a coll c hc
    unfold findCascadeUpdateAndInsertEntitiesToLoad at hc
    refine phase1List_mem_sound (fun vm r2 c1 c2 hr => ih vm r2 c1 c2 hr) _ coll c hc ?_
    intro rv hrv
    obtain ⟨rel, hrel, hre⟩ := List.mem_map.mp hrv
    constructor
    · rw [← hre]; exact hrel
    · rw [← hre]

theorem hasIdentity_append_left {c : SubjectCollection} {d : SubjectCollection}
    {k : Subject} (hk : hasIdentity c k = true) : hasIdentity (c ++ d) k = true := by
  unfold hasIdentity at *
  rw [List.any_append, hk]
  rfl

theorem hasIdentity_pushIfNotExist_mono {c : SubjectCollection} {s k : Subject}
    (hk : hasIdentity c k = true) : hasIdentity (pushIfNotExist c s) k = true := by
  unfold pushIfNotExist
  split
  · exact hk
  · exact hasIdentity_append_left hk

theorem hasIdentity_pushIfNotExist_self {c : SubjectCollection} {s : Subject} :
    hasIdentity (pushIfNotExist c s) s = true := by
  unfold pushIfNotExist
  by_cases hh : hasIdentity c s = true
  · rw [if_pos hh]
    exact hh
  · rw [Bool.not_eq_true] at hh
    rw [if_neg (by simp [hh])]
    unfold hasIdentity
    rw [List.any_append]
    have : identityEq s s = true := by simp [identityEq]
    simp [this]

theorem phase1List_hasIdentity_mono {ms : Metas} {h : Heap}
    {rec : Meta → Nat → SubjectCollection → Option SubjectCollection} {k : Subject}
    (Hrec : ∀ vm r2 c1 c2, rec vm r2 c1 = some c2 →
      hasIdentity c1 k = true → hasIdentity c2 k = true) :
    ∀ l coll c, phase1List ms h rec l coll = some c →
      hasIdentity coll k = true → hasIdentity c k = true := by
  intro l
  induction l with
  | nil =>
    intro coll c hc hk
    unfold phase1List at hc
    injection hc with he
    exact he ▸ hk
  | cons rv rest ih =>
    intro coll c hc hk
    unfold phase1List at hc
    cases hr : relPropRef rv.2 with
    | none => rw [hr] at hc; exact ih coll c hc hk
    | some r2 =>
      rw [hr] at hc
      by_cases hg : (rv.1.isCascadeInsert || rv.1.isCascadeUpdate) = true
      · simp only [hg, if_true] at hc
        cases hrec : rec (findMeta ms rv.1.inverseTarget) r2
            (pushIfNotExist coll (mkSubject h (findMeta ms rv.1.inverseTarget) r2)) with
        | none => rw [hrec] at hc; exact absurd hc (by simp)
        | some c2 =>
          rw [hrec] at hc
          exact ih c2 c hc (Hrec _ _ _ _ hrec (hasIdentity_pushIfNotExist_mono hk))
      · rw [Bool.not_eq_true] at hg
        simp only [hg, Bool.false_eq_true, if_false] at hc
        exact ih coll c hc hk

theorem phase1_hasIdentity_mono {ms : Metas} {h : Heap} {k : Subject} :
    ∀ n m a coll c, findCascadeUpdateAndInsertEntitiesToLoad ms h n m a coll = some c →
      hasIdentity coll k = true → hasIdentity c k = true := by
  intro n
  induction n with
  | zero =>
    intro m a coll c hc
    exact absurd hc (by simp [findCascadeUpdateAndInsertEntitiesToLoad])
  | succ n ih =>
    intro m a coll c hc
    unfold findCascadeUpdateAndInsertEntitiesToLoad at hc
    exact phase1List_hasIdentity_mono (fun vm r2 c1 c2 hr => ih vm r2 c1 c2 hr) _ coll c hc

theorem phase1List_complete {ms : Metas} {h : Heap}
    {rec : Meta → Nat → SubjectCollection → Option SubjectCollection}
    (Hmono : ∀ vm r2 c1 c2 k, rec vm r2 c1 = some c2 →
      hasIdentity c1 k = true → hasIdentity c2 k = true)
    (Hreach : ∀ vm r2 c1 c2, rec vm r2 c1 = some c2 →
      ∀ vm2 b, GatedReach ms h vm r2 vm2 b →
        hasIdentity c2 (mkSubject h vm2 b) = true) :
    ∀ l coll c, phase1List ms h rec l coll = some c →
      ∀ rel x, (rel, RelProp.ref x) ∈ l →
        (rel.isCascadeInsert || rel.isCascadeUpdate) = true →
        hasIdentity c (mkSubject h (findMeta ms rel.inverseTarget) x) = true ∧
        (∀ vm b, GatedReach ms h (findMeta ms rel.inverseTarget) x vm b →
          hasIdentity c (mkSubject h vm b) = true) := by
  intro l
  induction l with
  | nil =>
    intro coll c _ rel x hmem
    exact absurd hmem (by simp)
  | cons rv rest ih =>
    intro coll c hc rel x hmem hgate
    rcases List.mem_cons.mp hmem with heq | hrest
    · subst heq
      unfold phase1List at hc
      simp only [relPropRef, hgate, if_true] at hc
      cases hrec : rec (findMeta ms rel.inverseTarget) x
          (pushIfNotExist coll (mkSubject h (findMeta ms rel.inverseTarget) x)) with
      | none => rw [hrec] at hc; exact absurd hc (by simp)
      | some c2 =>
        rw [hrec] at hc
        constructor
        · exact phase1List_hasIdentity_mono (fun vm r2 c3 c4 hr => Hmono vm r2 c3 c4 _ hr)
            rest c2 c hc
            (Hmono _ _ _ _ _ hrec hasIdentity_pushIfNotExist_self)
        · intro vm b hre
          exact phase1List_hasIdentity_mono (fun vm2 r2 c3 c4 hr => Hmono vm2 r2 c3 c4 _ hr)
            rest c2 c hc (Hreach _ _ _ _ hrec vm b hre)
    · unfold phase1List at hc
      cases hr : relPropRef rv.2 with
      | none =>
        rw [hr] at hc
        exact ih coll c hc rel x hrest hgate
      | some r2 =>
        rw [hr] at hc
        by_cases hg : (rv.1.isCascadeInsert || rv.1.isCascadeUpdate) = true
        · simp only [hg, if_true] at hc
          cases hrec : rec (findMeta ms rv.1.inverseTarget) r2
              (pushIfNotExist coll (mkSubject h (findMeta ms rv.1.inverseTarget) r2)) with
          | none => rw [hrec] at hc; exact absurd hc (by simp)
          | some c2 =>
            rw [hrec] at hc
            exact ih c2 c hc rel x hrest hgate
        · rw [Bool.not_eq_true] at hg
          simp only [hg, Bool.false_eq_true, if_false] at hc
          exact ih coll c hc rel x hrest hgate

theorem phase1_complete {ms : Metas} {h : Heap} :
    ∀ n m a coll c, findCascadeUpdateAndInsertEntitiesToLoad ms h n m a coll = some c →
      ∀ vm b, GatedReach ms h m a vm b →
        hasIdentity c (mkSubject h vm b) = true := by
  intro n
  induction n with
  | zero =>
    intro m a coll c hc
    exact absurd hc (by simp [findCascadeUpdateAndInsertEntitiesToLoad])
  | succ n ih =>
    intro m a coll c hc vm b hreach
    unfold findCascadeUpdateAndInsertEntitiesToLoad at hc
    cases hreach with
    | step _ _ rel _ hrel hgp hg =>
      have hmem : (rel, RelProp.ref b) ∈ extractRelationValuesFromEntity h m a := by
        unfold extractRelationValuesFromEntity
        exact List.mem_map.mpr ⟨rel, hrel, by rw [hgp]⟩
      exact (phase1List_complete
        (fun vm2 r2 c1 c2 k hr => phase1_hasIdentity_mono n vm2 r2 c1 c2 hr)
        (fun vm2 r2 c1 c2 hr => ih vm2 r2 c1 c2 hr)
        _ coll c hc rel b hmem hg).1
    | head _ _ rel x _ _ hrel hgp hg hrest =>
      have hmem : (rel, RelProp.ref x) ∈ extractRelationValuesFromEntity h m a := by
        unfold extractRelationValuesFromEntity
        exact List.mem_map.mpr ⟨rel, hrel, by rw [hgp]⟩
      exact (phase1List_complete
        (fun vm2 r2 c1 c2 k hr => phase1_hasIdentity_mono n vm2 r2 c1 c2 hr)
        (fun vm2 r2 c1 c2 hr => ih vm2 r2 c1 c2 hr)
        _ coll c hc rel x hmem hg).2 vm b hrest

/-- C7: whenever the Phase-1 walk terminates, its output collection is
characterized by cascade-gated reachability.  Soundness: every Subject of the
output was already in the input collection or wraps an entity reached through
defined values of insert/update-cascaded relations only — relations without
those cascades, or with empty values, contribute nothing even when populated.
Completeness: every entity reached through a chain of defined cascaded relation
values is represented in the output by a Subject with its type and identifier
(created, or reused through deduplication). -/
theorem c7_phase1_cascade_gating (ms : Metas) (h : Heap) (n : Nat) (m : Meta)
    (a : Nat) (coll c : SubjectCollection)
    (hc : findCascadeUpdateAndInsertEntitiesToLoad ms h n m a coll = some c) :
    (∀ s ∈ c, s ∈ coll ∨
      ∃ vm b, GatedReach ms h m a vm b ∧ s = mkSubject h vm b) ∧
    (∀ vm b, GatedReach ms h m a vm b →
      hasIdentity c (mkSubject h vm b) = true) :=
  ⟨phase1_mem_sound n m a coll c hc, phase1_complete n m a coll c hc⟩

/-- C7 witness graph: a root with an insert-cascaded populated relation (to
Author), a populated relation without cascades (to Tag), and an insert-cascaded
empty relation (to Photo). -/
def authorRelW : Rel :=
  ⟨"author", RelKind.manyToOne, true, false, false, "Author", "id", "", "authorId", "id"⟩

def tagRelW : Rel :=
  ⟨"tag", RelKind.manyToOne, false, false, false, "Tag", "id", "", "tagId", "id"⟩

def photoRelW : Rel :=
  ⟨"photo", RelKind.manyToOne, true, false, false, "Photo", "id", "", "photoId", "id"⟩

def postMetaW7 : Meta := ⟨"PostW", "id", [authorRelW, tagRelW, photoRelW]⟩

def authorMetaW7 : Meta := ⟨"Author", "id", []⟩

def tagMetaW7 : Meta := ⟨"Tag", "id", []⟩

def msW7 : Metas := [postMetaW7, authorMetaW7, tagMetaW7]

def heapW7 : Heap :=
  [⟨[("id", JsVal.num 1)],
    [("author", RelProp.ref 1), ("tag", RelProp.ref 2), ("photo", RelProp.null)]⟩,
   ⟨[("id", JsVal.num 2)], []⟩,
   ⟨[("id", JsVal.num 3)], []⟩]

def collW7 : SubjectCollection :=
  [mkSubject heapW7 postMetaW7 0, mkSubject heapW7 authorMetaW7 1]

/-- Witness for C7: on the concrete graph the cascaded Author is represented in
the output collection. -/
theorem c7_phase1_cascade_gating_witness :
    hasIdentity collW7 (mkSubject heapW7 (findMeta msW7 "Author") 1) = true :=
  (c7_phase1_cascade_gating msW7 heapW7 2 postMetaW7 0
      [mkSubject heapW7 postMetaW7 0] collW7 (by rfl)).2
    (findMeta msW7 "Author") 1
    (GatedReach.step postMetaW7 0 authorRelW 1
      (List.mem_cons_self authorRelW [tagRelW, photoRelW]) (by rfl) (by rfl))

end DatabaseEntityLoaderModel
